import Mathlib

/-!
Verification of the persona lifecycle and state-tracking subsystem of the
`specx_cli` repository (files `persona_manager.py` and
`agent_persona_context.py`), shallowly embedded in Lean 4.

Modelling conventions:
* ISO-8601 timestamps are abstracted as natural numbers (seconds); the
  wall clock `datetime.now()` becomes an explicit `now : Nat` argument.
* Session durations, produced in Python as `(end - start).total_seconds()`,
  are integers (`Int`), since timestamps are naturals.
* Python floats used for aggregated metrics (`total_duration_seconds`,
  `success_rate`) are modelled exactly by `Int` and `ℚ`.
* Python dicts keyed by strings are association lists with Python's
  update-in-place-or-append assignment semantics (`dictSet`).
* The three JSON state files are modelled by a small JSON AST plus a
  `FileContent` type with `absent` and `corrupt` alternatives; `try/except`
  blocks become `Except Unit` computations with an explicit handler.
-/

namespace SpecxPersona

/-- A JSON value, as produced by Python's `json.load`. Numbers cover both
Python ints and floats, hence `ℚ`. Objects keep insertion order, like
Python dicts. -/
inductive Json where
  | null : Json
  | bool (b : Bool) : Json
  | num (q : ℚ) : Json
  | str (s : String) : Json
  | arr (elems : List Json) : Json
  | obj (fields : List (String × Json)) : Json

/-- Python truthiness of a JSON value (`if data.get("current_persona"):`):
`None`, `False`, `0`, `""`, `[]` and `{}` are falsy. -/
def Json.truthy : Json → Bool
  | .null => false
  | .bool b => b
  | .num q => q ≠ 0
  | .str s => s ≠ ""
  | .arr elems => !elems.isEmpty
  | .obj fields => !fields.isEmpty

/-- Python truthiness of an `Optional[str]` (`if ai_assistant:` /
`if context.phase:`): `None` and the empty string are falsy. -/
def optStrTruthy : Option String → Bool
  | none => false
  | some s => s ≠ ""

/-- Substring test on character lists: Python's `needle in hay`. -/
def listContainsSub (needle : List Char) : List Char → Bool
  | [] => needle.isEmpty
  | c :: rest => needle.isPrefixOf (c :: rest) || listContainsSub needle rest

/-- Python's `needle in hay` for strings. -/
def strContainsSub (hay needle : String) : Bool :=
  listContainsSub needle.toList hay.toList

/-- The error heuristic of `_update_performance`:
`"error" in note.lower()`. -/
def noteHasError (note : String) : Bool :=
  strContainsSub note.toLower "error"

/-- Python dict assignment `d[k] = v` on an association list: replace the
value at an existing key in place, otherwise append the new binding. -/
def dictSet : List (String × α) → String → α → List (String × α)
  | [], k, v => [(k, v)]
  | (k', v') :: rest, k, v =>
    if k' = k then (k, v) :: rest else (k', v') :: dictSet rest k v

/-- `PersonaContext` dataclass (persona_manager.py lines 16–25): the
context for a specific persona session. -/
structure PersonaContext where
  persona_id : String
  activated_at : Nat
  deactivated_at : Option Nat := none
  phase : Option String := none
  artifacts : List String := []
  metrics : List (String × Json) := []
  notes : List String := []

/-- `PersonaPerformance` dataclass (persona_manager.py lines 28–38):
cumulative performance metrics for a persona. -/
structure PersonaPerformance where
  persona_id : String
  total_sessions : Nat := 0
  total_duration_seconds : Int := 0
  phases_completed : List (String × Nat) := []
  artifacts_created : Nat := 0
  error_count : Nat := 0
  success_rate : ℚ := 100
  last_active : Option Nat := none

/-- One fold step of `_update_performance` (lines 199–220) on the record of
`context.persona_id`, after the record has been looked up or created. -/
def foldSession (perf : PersonaPerformance) (context : PersonaContext)
    (duration : Int) : PersonaPerformance :=
  let perf := { perf with
    total_sessions := perf.total_sessions + 1,
    total_duration_seconds := perf.total_duration_seconds + duration,
    artifacts_created := perf.artifacts_created + context.artifacts.length,
    last_active := context.deactivated_at }
  let perf := if optStrTruthy context.phase then
      match context.phase with
      | some ph =>
          let pc := if (perf.phases_completed.lookup ph).isSome then
              perf.phases_completed
            else dictSet perf.phases_completed ph 0
          let pc := dictSet pc ph (((pc.lookup ph).getD 0) + 1)
          { perf with phases_completed := pc }
      | none => perf
    else perf
  let perf := if context.notes.any (fun note => noteHasError note) then
      { perf with error_count := perf.error_count + 1 }
    else perf
  if perf.total_sessions > 0 then
    { perf with success_rate :=
        (((perf.total_sessions : ℚ) - (perf.error_count : ℚ)) /
          (perf.total_sessions : ℚ)) * 100 }
  else perf

/-- `_update_performance` (lines 192–222) restricted to its effect on the
performance mapping: look up or create the record for `context.persona_id`,
fold the completed session into it, store it back. -/
def updatePerformance (performance : List (String × PersonaPerformance))
    (context : PersonaContext) (duration : Int) :
    List (String × PersonaPerformance) :=
  let performance :=
    if (performance.lookup context.persona_id).isSome then performance
    else dictSet performance context.persona_id
      { persona_id := context.persona_id }
  let perf := (performance.lookup context.persona_id).getD
    { persona_id := context.persona_id }
  dictSet performance context.persona_id (foldSession perf context duration)

/-- One call to the Agent Context Notifier
(`create_agent_context_file(project_path, ai_assistant, persona_id, phase)`,
agent_persona_context.py lines 13–14): the assistant identifier, the
persona to display (`none` clears the marker file), and the phase. -/
structure NotifyEvent where
  ai_assistant : String
  persona_id : Option String
  phase : Option String

/-- The in-memory/persisted state of a `PersonaManager`
(persona_manager.py lines 41–51): the current context slot together with
the parsed contents of the history and performance state files. -/
structure PersonaManager where
  current_context : Option PersonaContext := none
  history : List PersonaContext := []
  performance : List (String × PersonaPerformance) := []

/-- `deactivate_persona` (lines 158–190). Returns the new manager state and
`none` (Python `None`, the "nothing to deactivate" sentinel) when idle,
otherwise the result dict `{status, persona, duration_seconds, artifacts}`.
The `ai_assistant` argument is accepted but never used by the source, so no
notifier event is emitted; the event list returned is always empty and is
kept only so that the deactivation boundary matches the other operations. -/
def deactivate_persona (m : PersonaManager) (now : Nat)
    (ai_assistant : Option String := none) :
    PersonaManager × Option (String × String × Int × Nat) × List NotifyEvent :=
  match m.current_context with
  | none => (m, none, [])
  | some ctx0 =>
    let ctx : PersonaContext := { ctx0 with deactivated_at := some now }
    let duration : Int := (now : Int) - (ctx.activated_at : Int)
    let history := m.history ++ [ctx]
    let performance := updatePerformance m.performance ctx duration
    let result := ("deactivated", ctx.persona_id, duration,
      ctx.artifacts.length)
    ({ current_context := none, history := history,
       performance := performance }, some result, [])

/-- `_update_agent_context` (lines 149–156): forwards to the Agent Context
Notifier; in this embedding the side effect is recorded as an event. -/
def updateAgentContext (ai_assistant : String) (persona_id : Option String)
    (phase : Option String) : List NotifyEvent :=
  [⟨ai_assistant, persona_id, phase⟩]

/-- Result dict of `activate_persona`
(`{status, persona, phase, activated_at}`, lines 142–147). -/
structure ActivateResult where
  status : String
  persona : String
  phase : Option String
  activated_at : Nat

/-- `activate_persona` (lines 122–147): deactivate the current persona if
any, create a fresh context stamped `now`, and notify the agent context
file when an AI assistant is supplied (Python truthiness: a supplied empty
string does not notify). -/
def activate_persona (m : PersonaManager) (persona_id : String)
    (phase : Option String := none) (ai_assistant : Option String := none)
    (now : Nat := 0) :
    PersonaManager × ActivateResult × List NotifyEvent :=
  let m := if m.current_context.isSome then
      (deactivate_persona m now ai_assistant).1
    else m
  let ctx : PersonaContext :=
    { persona_id := persona_id, activated_at := now, phase := phase }
  let m := { m with current_context := some ctx }
  let events := if optStrTruthy ai_assistant then
      match ai_assistant with
      | some a => updateAgentContext a (some persona_id) phase
      | none => []
    else []
  (m, ⟨"activated", persona_id, phase, now⟩, events)

/-- Result dict of `switch_persona`: the activation result with the added
`previous_persona` key (lines 232–235). -/
structure SwitchResult where
  status : String
  persona : String
  phase : Option String
  activated_at : Nat
  previous_persona : Option String

/-- `switch_persona` (lines 224–235): remember the previous persona id,
deactivate if active, activate the new persona, and return the activation
result extended with `previous_persona`. -/
def switch_persona (m : PersonaManager) (new_persona_id : String)
    (phase : Option String := none) (ai_assistant : Option String := none)
    (now : Nat := 0) :
    PersonaManager × SwitchResult × List NotifyEvent :=
  let previous := match m.current_context with
    | some ctx => some ctx.persona_id
    | none => none
  let m := if m.current_context.isSome then
      (deactivate_persona m now ai_assistant).1
    else m
  let (m, result, events) := activate_persona m new_persona_id phase
    ai_assistant now
  (m, ⟨result.status, result.persona, result.phase, result.activated_at,
    previous⟩, events)

/-- `add_artifact` (lines 241–245): append a path to the active context's
artifact list; no-op when idle. -/
def add_artifact (m : PersonaManager) (artifact_path : String) :
    PersonaManager :=
  match m.current_context with
  | none => m
  | some ctx =>
    let ctx := { ctx with artifacts := ctx.artifacts ++ [artifact_path] }
    { m with current_context := some ctx }

/-- `add_note` (lines 247–251): append a timestamped note to the active
context; no-op when idle. -/
def add_note (m : PersonaManager) (note : String) (now : Nat) :
    PersonaManager :=
  match m.current_context with
  | none => m
  | some ctx =>
    let ctx :=
      { ctx with notes := ctx.notes ++ ["[" ++ toString now ++ "] " ++ note] }
    { m with current_context := some ctx }

/-- `update_phase` (lines 253–257): replace the active context's phase;
no-op when idle. -/
def update_phase (m : PersonaManager) (phase : String) : PersonaManager :=
  match m.current_context with
  | none => m
  | some ctx =>
    { m with current_context := some { ctx with phase := some phase } }

/-- One lifecycle call of the kinds the single-active invariant quantifies
over: `activate_persona` or `switch_persona`, with its arguments and the
wall-clock instant of the call. -/
inductive LifecycleOp where
  | activate (persona_id : String) (phase ai : Option String) (now : Nat)
  | switch (persona_id : String) (phase ai : Option String) (now : Nat)

/-- Run a sequence of `activate_persona`/`switch_persona` calls, keeping
only the evolving manager state. -/
def runOps (m : PersonaManager) : List LifecycleOp → PersonaManager
  | [] => m
  | op :: ops =>
    let m' := match op with
      | .activate pid phase ai now => (activate_persona m pid phase ai now).1
      | .switch pid phase ai now => (switch_persona m pid phase ai now).1
    runOps m' ops

/-- The number of `PersonaContext` values held by the manager (the current
slot plus the history log) that are active, i.e. have no
`deactivated_at`. -/
def PersonaManager.activeContexts (m : PersonaManager) : Nat :=
  (m.history.filter (fun c => c.deactivated_at = none)).length +
    (match m.current_context with
     | some c => if c.deactivated_at = none then 1 else 0
     | none => 0)

/-- Every history entry carries a deactivation timestamp. This holds for a
freshly initialized manager (empty history) and is preserved by every
operation. -/
def PersonaManager.historyDeactivated (m : PersonaManager) : Bool :=
  m.history.all fun c => c.deactivated_at.isSome

/-- Fold a batch of completed sessions (each a deactivated context together
with its computed duration) into a performance mapping, one
`_update_performance` call per session. -/
def foldSessions (performance : List (String × PersonaPerformance))
    (sessions : List (PersonaContext × Int)) :
    List (String × PersonaPerformance) :=
  sessions.foldl (fun acc s => updatePerformance acc s.1 s.2) performance

/-- The same fold restricted to a single persona's record. -/
def foldSessionsRecord (perf : PersonaPerformance)
    (sessions : List (PersonaContext × Int)) : PersonaPerformance :=
  sessions.foldl (fun r s => foldSession r s.1 s.2) perf

/-- The sessions of a batch that trip the error heuristic: at least one
note contains the case-insensitive substring "error". -/
def countErrorSessions (sessions : List (PersonaContext × Int)) : Nat :=
  (sessions.filter (fun s => s.1.notes.any (fun note => noteHasError note))).length

/-- Contents of one of the persisted state files, as seen by the loaders:
either the file is missing, or `json.load` fails on it, or it parses to a
JSON value. -/
inductive FileContent where
  | absent : FileContent
  | corrupt : FileContent
  | json (j : Json) : FileContent

/-- `json.load` on an opened state file: fails (raises) on a missing or
unparsable file. -/
def jsonLoad : FileContent → Option Json
  | .json j => some j
  | _ => none

/-- Project a JSON value to its object fields (any Python operation that
requires a dict raises otherwise). -/
def Json.asObj : Json → Option (List (String × Json))
  | .obj kvs => some kvs
  | _ => none

/-- Project a JSON value to a string. -/
def Json.asStr : Json → Option String
  | .str s => some s
  | _ => none

/-- Project a JSON number to a natural (a non-negative integer timestamp in
this model). -/
def Json.asNat : Json → Option Nat
  | .num q => if (q.num.toNat : ℚ) = q then some q.num.toNat else none
  | _ => none

/-- Project a JSON number to an integer. -/
def Json.asInt : Json → Option Int
  | .num q => if (q.num : ℚ) = q then some q.num else none
  | _ => none

/-- Project a JSON number to a rational. -/
def Json.asRat : Json → Option ℚ
  | .num q => some q
  | _ => none

/-- Decode a nullable timestamp field. -/
def Json.asOptNat : Json → Option (Option Nat)
  | .null => some none
  | .num q => (Json.asNat (.num q)).map some
  | _ => none

/-- Decode a nullable string field. -/
def Json.asOptStr : Json → Option (Option String)
  | .null => some none
  | .str s => some (some s)
  | _ => none

/-- Decode a JSON array of strings. -/
def Json.asStrList : Json → Option (List String)
  | .arr elems => elems.mapM Json.asStr
  | _ => none

/-- Decode a JSON object with natural-number values
(`phases_completed`). -/
def Json.asNatObj : Json → Option (List (String × Nat))
  | .obj kvs => kvs.mapM (fun p => (Json.asNat p.2).map (fun n => (p.1, n)))
  | _ => none

/-- Decode an optional keyword argument: absent keys take the dataclass
default, present keys must decode. -/
def decodeField (kvs : List (String × Json)) (k : String) (dec : Json → Option α)
    (dflt : α) : Option α :=
  match kvs.lookup k with
  | none => some dflt
  | some v => dec v

/-- The keyword-argument names accepted by `PersonaContext(**data)`. -/
def contextFieldNames : List String :=
  ["persona_id", "activated_at", "deactivated_at", "phase", "artifacts",
   "metrics", "notes"]

/-- `PersonaContext(**data)`: fails unless `data` is a dict whose keys are
all dataclass field names including the required `persona_id` and
`activated_at`; missing optional fields take their defaults. (The Python
dataclass does not type-check field values at runtime; this embedding
additionally requires each present value to have the declared type, which
only narrows the failure-to-default path of the loaders.) -/
def decodePersonaContext (j : Json) : Option PersonaContext := do
  let kvs ← j.asObj
  guard (kvs.all fun p => contextFieldNames.contains p.1)
  let pid ← (kvs.lookup "persona_id").bind Json.asStr
  let act ← (kvs.lookup "activated_at").bind Json.asNat
  let deact ← decodeField kvs "deactivated_at" Json.asOptNat none
  let phase ← decodeField kvs "phase" Json.asOptStr none
  let artifacts ← decodeField kvs "artifacts" Json.asStrList []
  let metrics ← decodeField kvs "metrics" Json.asObj []
  let notes ← decodeField kvs "notes" Json.asStrList []
  pure ⟨pid, act, deact, phase, artifacts, metrics, notes⟩

/-- The keyword-argument names accepted by `PersonaPerformance(**pdata)`. -/
def performanceFieldNames : List String :=
  ["persona_id", "total_sessions", "total_duration_seconds",
   "phases_completed", "artifacts_created", "error_count", "success_rate",
   "last_active"]

/-- `PersonaPerformance(**pdata)`, under the same conventions as
`decodePersonaContext`. -/
def decodePersonaPerformance (j : Json) : Option PersonaPerformance := do
  let kvs ← j.asObj
  guard (kvs.all fun p => performanceFieldNames.contains p.1)
  let pid ← (kvs.lookup "persona_id").bind Json.asStr
  let sessions ← decodeField kvs "total_sessions" Json.asNat 0
  let dur ← decodeField kvs "total_duration_seconds" Json.asInt 0
  let phases ← decodeField kvs "phases_completed" Json.asNatObj []
  let artifacts ← decodeField kvs "artifacts_created" Json.asNat 0
  let errors ← decodeField kvs "error_count" Json.asNat 0
  let rate ← decodeField kvs "success_rate" Json.asRat 100
  let last ← decodeField kvs "last_active" Json.asOptNat none
  pure ⟨pid, sessions, dur, phases, artifacts, errors, rate, last⟩

/-- Encode a nullable timestamp. -/
def encodeOptNat : Option Nat → Json
  | none => .null
  | some n => .num n

/-- Encode a nullable string. -/
def encodeOptStr : Option String → Json
  | none => .null
  | some s => .str s

/-- `asdict(context)`: the JSON object written for a `PersonaContext`. -/
def encodeContext (ctx : PersonaContext) : Json :=
  .obj [("persona_id", .str ctx.persona_id),
        ("activated_at", .num ctx.activated_at),
        ("deactivated_at", encodeOptNat ctx.deactivated_at),
        ("phase", encodeOptStr ctx.phase),
        ("artifacts", .arr (ctx.artifacts.map .str)),
        ("metrics", .obj ctx.metrics),
        ("notes", .arr (ctx.notes.map .str))]

/-- `_save_state` (lines 76–83): the JSON document written to the state
file, `{"current_persona": asdict(ctx) | null, "updated_at": now}`. -/
def encodeState (current : Option PersonaContext) (now : Nat) : Json :=
  .obj [("current_persona",
          match current with
          | some c => encodeContext c
          | none => .null),
        ("updated_at", .num now)]

/-- The body of the `try` block of `_load_state` (lines 68–72): parse the
file, read `current_persona` with dict `.get`, and construct a
`PersonaContext` only when the value is truthy. `none` is a raised
exception. -/
def loadStateBody (fc : FileContent) : Option (Option PersonaContext) := do
  let j ← jsonLoad fc
  let kvs ← j.asObj
  match kvs.lookup "current_persona" with
  | none => pure none
  | some v =>
    if v.truthy then do
      let ctx ← decodePersonaContext v
      pure (some ctx)
    else pure none

/-- `_load_state` (lines 66–74): the `except Exception` handler turns any
failure into a null current context. -/
def load_state (fc : FileContent) : Option PersonaContext :=
  (loadStateBody fc).getD none

/-- `_load_history` (lines 85–91): return the parsed JSON document as-is,
or the empty list on any failure. -/
def load_history (fc : FileContent) : Json :=
  match jsonLoad fc with
  | some j => j
  | none => .arr []

/-- The body of the `try` block of `_load_performance` (lines 101–106):
parse the file, iterate `data.items()` (requires a dict) and build a
`PersonaPerformance` from each entry. `none` is a raised exception. -/
def loadPerformanceBody (fc : FileContent) :
    Option (List (String × PersonaPerformance)) := do
  let j ← jsonLoad fc
  let kvs ← j.asObj
  kvs.mapM (fun p => (decodePersonaPerformance p.2).map (fun r => (p.1, r)))

/-- `_load_performance` (lines 98–108): the `except Exception` handler
turns any failure into an empty performance mapping. -/
def load_performance (fc : FileContent) :
    List (String × PersonaPerformance) :=
  (loadPerformanceBody fc).getD []

/-- A concrete two-session batch for the `tech-lead` persona, the first
session carrying an error note (the two-session scenario of the spec's
testable properties). -/
def tlErrSessions : List (PersonaContext × Int) :=
  [(⟨"tech-lead", 0, some 600, none, [], [],
      ["[3] Error: build failed"]⟩, 600),
   (⟨"tech-lead", 10, some 70, none, [], [], ["[12] all fine"]⟩, 60)]

/-! ## Helper lemmas: association lists with Python dict semantics -/

theorem beq_false_of_ne {a b : String} (h : a ≠ b) : (a == b) = false := by
  simpa [beq_eq_false_iff_ne] using h

theorem lookup_dictSet_self (m : List (String × α)) (k : String) (v : α) :
    (dictSet m k v).lookup k = some v := by
  induction m with
  | nil => simp [dictSet, List.lookup]
  | cons p rest ih =>
    obtain ⟨k', v'⟩ := p
    by_cases h : k' = k
    · simp [dictSet, h, List.lookup]
    · simp [dictSet, h, List.lookup, beq_false_of_ne (Ne.symm h), ih]

theorem lookup_dictSet_ne (m : List (String × α)) (k q : String) (v : α)
    (h : q ≠ k) : (dictSet m k v).lookup q = m.lookup q := by
  induction m with
  | nil => simp [dictSet, List.lookup, beq_false_of_ne h]
  | cons p rest ih =>
    obtain ⟨k', v'⟩ := p
    by_cases hk : k' = k
    · subst hk
      simp [dictSet, List.lookup, beq_false_of_ne h]
    · by_cases hq : q = k'
      · simp [dictSet, hk, List.lookup, hq]
      · simp [dictSet, hk, List.lookup, beq_false_of_ne hq, ih]

theorem mem_dictSet (m : List (String × α)) (k : String) (v : α)
    (x : String × α) (h : x ∈ dictSet m k v) : x ∈ m ∨ x = (k, v) := by
  induction m with
  | nil => simp [dictSet] at h; simp [h]
  | cons p rest ih =>
    obtain ⟨k', v'⟩ := p
    by_cases hk : k' = k
    · simp [dictSet, hk] at h
      rcases h with h | h
      · right; simp [h]
      · left; simp [h]
    · simp [dictSet, hk] at h
      rcases h with h | h
      · left; simp [h]
      · rcases ih h with h' | h'
        · left; simp [h']
        · right; exact h'

theorem mem_of_lookup_eq_some {m : List (String × α)} {k : String} {v : α}
    (h : m.lookup k = some v) : (k, v) ∈ m := by
  induction m with
  | nil => simp [List.lookup] at h
  | cons p rest ih =>
    obtain ⟨k', v'⟩ := p
    by_cases hk : k = k'
    · subst hk
      simp [List.lookup] at h
      simp [h]
    · simp [List.lookup, beq_false_of_ne hk] at h
      exact List.mem_cons_of_mem _ (ih h)

/-! ## Helper lemmas: one `_update_performance` fold step -/

theorem foldSession_persona_id (perf : PersonaPerformance)
    (ctx : PersonaContext) (d : Int) :
    (foldSession perf ctx d).persona_id = perf.persona_id := by
  simp only [foldSession]
  cases hp : optStrTruthy ctx.phase <;>
    cases ctx.phase <;>
      cases he : ctx.notes.any (fun note => noteHasError note) <;>
        simp [hp, he]

theorem foldSession_total_sessions (perf : PersonaPerformance)
    (ctx : PersonaContext) (d : Int) :
    (foldSession perf ctx d).total_sessions = perf.total_sessions + 1 := by
  simp only [foldSession]
  cases hp : optStrTruthy ctx.phase <;>
    cases ctx.phase <;>
      cases he : ctx.notes.any (fun note => noteHasError note) <;>
        simp [hp, he]

theorem foldSession_duration (perf : PersonaPerformance)
    (ctx : PersonaContext) (d : Int) :
    (foldSession perf ctx d).total_duration_seconds =
      perf.total_duration_seconds + d := by
  simp only [foldSession]
  cases hp : optStrTruthy ctx.phase <;>
    cases ctx.phase <;>
      cases he : ctx.notes.any (fun note => noteHasError note) <;>
        simp [hp, he]

theorem foldSession_artifacts (perf : PersonaPerformance)
    (ctx : PersonaContext) (d : Int) :
    (foldSession perf ctx d).artifacts_created =
      perf.artifacts_created + ctx.artifacts.length := by
  simp only [foldSession]
  cases hp : optStrTruthy ctx.phase <;>
    cases ctx.phase <;>
      cases he : ctx.notes.any (fun note => noteHasError note) <;>
        simp [hp, he]

theorem foldSession_error_count (perf : PersonaPerformance)
    (ctx : PersonaContext) (d : Int) :
    (foldSession perf ctx d).error_count =
      perf.error_count +
        (if ctx.notes.any (fun note => noteHasError note) then 1 else 0) := by
  simp only [foldSession]
  cases hp : optStrTruthy ctx.phase <;>
    cases ctx.phase <;>
      cases he : ctx.notes.any (fun note => noteHasError note) <;>
        simp [hp, he]

theorem foldSession_success_rate (perf : PersonaPerformance)
    (ctx : PersonaContext) (d : Int) :
    (foldSession perf ctx d).success_rate =
      (((foldSession perf ctx d).total_sessions : ℚ) -
          ((foldSession perf ctx d).error_count : ℚ)) /
        ((foldSession perf ctx d).total_sessions : ℚ) * 100 := by
  simp only [foldSession]
  cases hp : optStrTruthy ctx.phase <;>
    cases ctx.phase <;>
      cases he : ctx.notes.any (fun note => noteHasError note) <;>
        simp [hp, he]

/-! ## Helper lemmas: the performance mapping under session folds -/

theorem updatePerformance_lookup_self (m : List (String × PersonaPerformance))
    (ctx : PersonaContext) (d : Int) :
    (updatePerformance m ctx d).lookup ctx.persona_id =
      some (foldSession
        ((m.lookup ctx.persona_id).getD { persona_id := ctx.persona_id })
        ctx d) := by
  simp only [updatePerformance]
  cases h : m.lookup ctx.persona_id with
  | none => simp [h, lookup_dictSet_self]
  | some perf => simp [h, lookup_dictSet_self]

theorem foldSessions_cons (m : List (String × PersonaPerformance))
    (s : PersonaContext × Int) (rest : List (PersonaContext × Int)) :
    foldSessions m (s :: rest) =
      foldSessions (updatePerformance m s.1 s.2) rest := by
  simp [foldSessions]

theorem foldSessions_lookup (sessions : List (PersonaContext × Int))
    (p : String) (hall : ∀ s ∈ sessions, s.1.persona_id = p) :
    ∀ (m : List (String × PersonaPerformance)) (perf₀ : PersonaPerformance),
      m.lookup p = some perf₀ →
      (foldSessions m sessions).lookup p =
        some (foldSessionsRecord perf₀ sessions) := by
  induction sessions with
  | nil => intro m perf₀ h; simpa [foldSessions, foldSessionsRecord] using h
  | cons s rest ih =>
    intro m perf₀ h
    have hs : s.1.persona_id = p := hall s (List.mem_cons_self s rest)
    have hlook : (updatePerformance m s.1 s.2).lookup p =
        some (foldSession perf₀ s.1 s.2) := by
      rw [← hs] at h ⊢
      rw [updatePerformance_lookup_self, h]
      rfl
    have := ih (fun t ht => hall t (List.mem_cons_of_mem s ht))
      (updatePerformance m s.1 s.2) (foldSession perf₀ s.1 s.2) hlook
    simpa [foldSessions, foldSessionsRecord] using this

theorem foldSessionsRecord_cons (perf : PersonaPerformance)
    (s : PersonaContext × Int) (rest : List (PersonaContext × Int)) :
    foldSessionsRecord perf (s :: rest) =
      foldSessionsRecord (foldSession perf s.1 s.2) rest := by
  simp [foldSessionsRecord]

theorem foldSessionsRecord_total_sessions
    (sessions : List (PersonaContext × Int)) :
    ∀ perf : PersonaPerformance,
      (foldSessionsRecord perf sessions).total_sessions =
        perf.total_sessions + sessions.length := by
  induction sessions with
  | nil => intro perf; simp [foldSessionsRecord]
  | cons s rest ih =>
    intro perf
    rw [foldSessionsRecord_cons, ih, foldSession_total_sessions]
    simp
    omega

theorem foldSessionsRecord_duration (sessions : List (PersonaContext × Int)) :
    ∀ perf : PersonaPerformance,
      (foldSessionsRecord perf sessions).total_duration_seconds =
        perf.total_duration_seconds + (sessions.map (fun s => s.2)).sum := by
  induction sessions with
  | nil => intro perf; simp [foldSessionsRecord]
  | cons s rest ih =>
    intro perf
    rw [foldSessionsRecord_cons, ih, foldSession_duration]
    simp
    ring

theorem foldSessionsRecord_artifacts (sessions : List (PersonaContext × Int)) :
    ∀ perf : PersonaPerformance,
      (foldSessionsRecord perf sessions).artifacts_created =
        perf.artifacts_created +
          (sessions.map (fun s => s.1.artifacts.length)).sum := by
  induction sessions with
  | nil => intro perf; simp [foldSessionsRecord]
  | cons s rest ih =>
    intro perf
    rw [foldSessionsRecord_cons, ih, foldSession_artifacts]
    simp
    omega

theorem foldSessionsRecord_error_count
    (sessions : List (PersonaContext × Int)) :
    ∀ perf : PersonaPerformance,
      (foldSessionsRecord perf sessions).error_count =
        perf.error_count + countErrorSessions sessions := by
  induction sessions with
  | nil => intro perf; simp [foldSessionsRecord, countErrorSessions]
  | cons s rest ih =>
    intro perf
    rw [foldSessionsRecord_cons, ih, foldSession_error_count]
    by_cases he : s.1.notes.any (fun note => noteHasError note) <;>
      simp [countErrorSessions, he] <;> omega

theorem foldSessionsRecord_success_rate
    (sessions : List (PersonaContext × Int)) :
    ∀ perf : PersonaPerformance, sessions ≠ [] →
      (foldSessionsRecord perf sessions).success_rate =
        (((foldSessionsRecord perf sessions).total_sessions : ℚ) -
            ((foldSessionsRecord perf sessions).error_count : ℚ)) /
          ((foldSessionsRecord perf sessions).total_sessions : ℚ) * 100 := by
  induction sessions with
  | nil => intro perf h; cases h rfl
  | cons s rest ih =>
    intro perf _
    cases rest with
    | nil =>
      rw [foldSessionsRecord_cons]
      simpa [foldSessionsRecord] using foldSession_success_rate perf s.1 s.2
    | cons t ts =>
      rw [foldSessionsRecord_cons]
      exact ih (foldSession perf s.1 s.2) (by simp)

theorem foldSessions_empty_lookup (sessions : List (PersonaContext × Int))
    (p : String) (hall : ∀ s ∈ sessions, s.1.persona_id = p)
    (hne : sessions ≠ []) :
    (foldSessions [] sessions).lookup p =
      some (foldSessionsRecord { persona_id := p } sessions) := by
  cases sessions with
  | nil => cases hne rfl
  | cons s rest =>
    have hs : s.1.persona_id = p := hall s (List.mem_cons_self s rest)
    rw [foldSessions_cons]
    have h0 : (updatePerformance [] s.1 s.2).lookup p =
        some (foldSession { persona_id := p } s.1 s.2) := by
      rw [← hs]
      rw [updatePerformance_lookup_self]
      simp [List.lookup, hs]
    rw [foldSessions_lookup rest p
      (fun t ht => hall t (List.mem_cons_of_mem s ht)) _ _ h0,
      foldSessionsRecord_cons]

theorem aggregation_totals_aux (p : String)
    (sessions : List (PersonaContext × Int))
    (hall : ∀ s ∈ sessions, s.1.persona_id = p) (hne : sessions ≠ []) :
    ∃ perf : PersonaPerformance,
      (foldSessions [] sessions).lookup p = some perf ∧
      perf.total_sessions = sessions.length ∧
      perf.total_duration_seconds = (sessions.map (fun s => s.2)).sum ∧
      perf.artifacts_created =
        (sessions.map (fun s => s.1.artifacts.length)).sum := by
  refine ⟨_, foldSessions_empty_lookup sessions p hall hne, ?_, ?_, ?_⟩
  · rw [foldSessionsRecord_total_sessions]; simp
  · rw [foldSessionsRecord_duration]; simp
  · rw [foldSessionsRecord_artifacts]; simp

theorem success_rate_aux (p : String)
    (sessions : List (PersonaContext × Int))
    (hall : ∀ s ∈ sessions, s.1.persona_id = p) (hne : sessions ≠ []) :
    (∃ perf : PersonaPerformance,
      (foldSessions [] sessions).lookup p = some perf ∧
      perf.error_count = countErrorSessions sessions ∧
      perf.success_rate =
        ((sessions.length : ℚ) - (countErrorSessions sessions : ℚ)) /
          (sessions.length : ℚ) * 100) ∧
    ({ persona_id := p } : PersonaPerformance).success_rate = 100 := by
  refine ⟨⟨_, foldSessions_empty_lookup sessions p hall hne, ?_, ?_⟩, rfl⟩
  · rw [foldSessionsRecord_error_count]; simp
  · rw [foldSessionsRecord_success_rate _ _ hne,
      foldSessionsRecord_total_sessions, foldSessionsRecord_error_count]
    simp

theorem foldSession_inv (perf : PersonaPerformance) (ctx : PersonaContext)
    (d : Int) (h : perf.error_count ≤ perf.total_sessions) :
    (foldSession perf ctx d).error_count ≤
      (foldSession perf ctx d).total_sessions ∧
    0 ≤ (foldSession perf ctx d).success_rate ∧
    (foldSession perf ctx d).success_rate ≤ 100 := by
  have hS := foldSession_total_sessions perf ctx d
  have hE := foldSession_error_count perf ctx d
  have hR := foldSession_success_rate perf ctx d
  have hle : (foldSession perf ctx d).error_count ≤
      (foldSession perf ctx d).total_sessions := by
    rw [hS, hE]
    by_cases he : ctx.notes.any (fun note => noteHasError note) <;>
      simp [he] <;> omega
  have hpos : (0 : ℚ) < ((foldSession perf ctx d).total_sessions : ℚ) := by
    rw [hS]
    exact_mod_cast Nat.succ_pos perf.total_sessions
  have hcast : ((foldSession perf ctx d).error_count : ℚ) ≤
      ((foldSession perf ctx d).total_sessions : ℚ) := by exact_mod_cast hle
  refine ⟨hle, ?_, ?_⟩
  · rw [hR]
    apply mul_nonneg _ (by norm_num)
    exact div_nonneg (by linarith) (le_of_lt hpos)
  · rw [hR]
    have h1 : (((foldSession perf ctx d).total_sessions : ℚ) -
        ((foldSession perf ctx d).error_count : ℚ)) /
        ((foldSession perf ctx d).total_sessions : ℚ) ≤ 1 := by
      rw [div_le_one hpos]
      have : (0 : ℚ) ≤ ((foldSession perf ctx d).error_count : ℚ) := by
        positivity
      linarith
    calc (((foldSession perf ctx d).total_sessions : ℚ) -
            ((foldSession perf ctx d).error_count : ℚ)) /
          ((foldSession perf ctx d).total_sessions : ℚ) * 100
        ≤ 1 * 100 := by
          apply mul_le_mul_of_nonneg_right h1 (by norm_num)
      _ = 100 := by norm_num

theorem updatePerformance_inv (m : List (String × PersonaPerformance))
    (ctx : PersonaContext) (d : Int)
    (h : ∀ x ∈ m, x.2.error_count ≤ x.2.total_sessions ∧
      0 ≤ x.2.success_rate ∧ x.2.success_rate ≤ 100) :
    ∀ x ∈ updatePerformance m ctx d,
      x.2.error_count ≤ x.2.total_sessions ∧
      0 ≤ x.2.success_rate ∧ x.2.success_rate ≤ 100 := by
  intro x hx
  rw [updatePerformance] at hx
  set dflt : PersonaPerformance := { persona_id := ctx.persona_id } with hdflt
  by_cases hmem : (m.lookup ctx.persona_id).isSome
  · obtain ⟨perf, hperf⟩ := Option.isSome_iff_exists.mp hmem
    simp only [hmem, if_pos, hperf] at hx
    rcases mem_dictSet _ _ _ _ hx with hin | heq
    · exact h x hin
    · subst heq
      have hps := h _ (mem_of_lookup_eq_some hperf)
      simpa [hperf] using foldSession_inv perf ctx d hps.1
  · simp only [hmem, if_neg, not_false_iff, lookup_dictSet_self] at hx
    rcases mem_dictSet _ _ _ _ hx with hin | heq
    · rcases mem_dictSet _ _ _ _ hin with hin' | heq'
      · exact h x hin'
      · subst heq'
        exact ⟨le_refl 0, by norm_num, by norm_num⟩
    · subst heq
      have hd0 : dflt.error_count ≤ dflt.total_sessions := le_refl 0
      simpa [lookup_dictSet_self] using foldSession_inv dflt ctx d hd0

theorem foldSessions_inv (sessions : List (PersonaContext × Int)) :
    ∀ m : List (String × PersonaPerformance),
      (∀ x ∈ m, x.2.error_count ≤ x.2.total_sessions ∧
        0 ≤ x.2.success_rate ∧ x.2.success_rate ≤ 100) →
      ∀ x ∈ foldSessions m sessions,
        x.2.error_count ≤ x.2.total_sessions ∧
        0 ≤ x.2.success_rate ∧ x.2.success_rate ≤ 100 := by
  induction sessions with
  | nil => intro m h; simpa [foldSessions] using h
  | cons s rest ih =>
    intro m h
    rw [foldSessions_cons]
    exact ih _ (updatePerformance_inv m s.1 s.2 h)

/-! ## Helper lemmas: lifecycle state transitions -/

theorem deactivate_state (m : PersonaManager) (ctx : PersonaContext)
    (now : Nat) (ai : Option String) (h : m.current_context = some ctx) :
    (deactivate_persona m now ai).1 =
      { current_context := none,
        history := m.history ++ [{ ctx with deactivated_at := some now }],
        performance := updatePerformance m.performance
          { ctx with deactivated_at := some now }
          ((now : Int) - (ctx.activated_at : Int)) } := by
  simp [deactivate_persona, h]

theorem activate_state_idle (m : PersonaManager) (pid : String)
    (phase ai : Option String) (now : Nat) (h : m.current_context = none) :
    (activate_persona m pid phase ai now).1 =
      { m with current_context := some ⟨pid, now, none, phase, [], [], []⟩ } := by
  simp [activate_persona, h]

theorem activate_state_active (m : PersonaManager) (ctx : PersonaContext)
    (pid : String) (phase ai : Option String) (now : Nat)
    (h : m.current_context = some ctx) :
    (activate_persona m pid phase ai now).1 =
      { current_context := some ⟨pid, now, none, phase, [], [], []⟩,
        history := m.history ++ [{ ctx with deactivated_at := some now }],
        performance := updatePerformance m.performance
          { ctx with deactivated_at := some now }
          ((now : Int) - (ctx.activated_at : Int)) } := by
  simp only [activate_persona, h, Option.isSome_some, if_pos]
  rw [deactivate_state m ctx now ai h]

theorem historyDeactivated_activate (m : PersonaManager) (pid : String)
    (phase ai : Option String) (now : Nat)
    (h : m.historyDeactivated = true) :
    (activate_persona m pid phase ai now).1.historyDeactivated = true := by
  cases hc : m.current_context with
  | none =>
    rw [activate_state_idle m pid phase ai now hc]
    exact h
  | some ctx =>
    rw [activate_state_active m ctx pid phase ai now hc]
    simp only [PersonaManager.historyDeactivated] at h ⊢
    simp [List.all_append, h]

theorem historyDeactivated_switch (m : PersonaManager) (pid : String)
    (phase ai : Option String) (now : Nat)
    (h : m.historyDeactivated = true) :
    (switch_persona m pid phase ai now).1.historyDeactivated = true := by
  cases hc : m.current_context with
  | none =>
    simp only [switch_persona, hc, Option.isSome_none, Bool.false_eq_true,
      if_neg, not_false_iff]
    exact historyDeactivated_activate m pid phase ai now h
  | some ctx =>
    simp only [switch_persona, hc, Option.isSome_some, if_pos]
    apply historyDeactivated_activate
    rw [deactivate_state m ctx now ai hc]
    simp only [PersonaManager.historyDeactivated] at h ⊢
    simp [List.all_append, h]

theorem historyDeactivated_runOps (ops : List LifecycleOp) :
    ∀ m : PersonaManager, m.historyDeactivated = true →
      (runOps m ops).historyDeactivated = true := by
  induction ops with
  | nil => intro m h; simpa [runOps] using h
  | cons op rest ih =>
    intro m h
    cases op with
    | activate pid phase ai now =>
      exact ih _ (historyDeactivated_activate m pid phase ai now h)
    | switch pid phase ai now =>
      exact ih _ (historyDeactivated_switch m pid phase ai now h)

theorem activeContexts_le_one (m : PersonaManager)
    (h : m.historyDeactivated = true) : m.activeContexts ≤ 1 := by
  have hfilter : m.history.filter (fun c => c.deactivated_at = none) = [] := by
    rw [List.filter_eq_nil_iff]
    intro c hc
    have := (List.all_eq_true.mp h) c hc
    simp only [Option.isSome_iff_exists] at this
    obtain ⟨t, ht⟩ := this
    simp [ht]
  rw [PersonaManager.activeContexts, hfilter]
  cases hc : m.current_context with
  | none => simp
  | some c =>
    by_cases hd : c.deactivated_at = none <;> simp [hd]

/-! ## Helper lemmas: state-store round-trip -/

theorem mapM_loop_asStr (xs acc : List String) :
    List.mapM.loop Json.asStr (xs.map Json.str) acc =
      some (acc.reverse ++ xs) := by
  induction xs generalizing acc with
  | nil => simp [List.mapM.loop]
  | cons x xs ih => simp [List.mapM.loop, Json.asStr, ih]

theorem decode_encode_context (ctx : PersonaContext) :
    decodePersonaContext (encodeContext ctx) = some ctx := by
  obtain ⟨pid, act, deact, phase, artifacts, metrics, notes⟩ := ctx
  cases deact <;> cases phase <;>
    simp [decodePersonaContext, encodeContext, Json.asObj, decodeField,
      contextFieldNames, Json.asStr, Json.asNat, Json.asOptNat,
      Json.asOptStr, Json.asStrList, encodeOptNat, encodeOptStr,
      mapM_loop_asStr, List.lookup]

/-! ## Claim theorems -/

/-- Claim C1: after any sequence of `activate_persona`/`switch_persona`
calls on a manager (starting from any manager whose history entries are
all deactivated, in particular a fresh one), at most one `PersonaContext`
is active (has no `deactivated_at`); and every `activate_persona` call
made while a context is active appends exactly one new history entry for
the previously active persona, its `deactivated_at` stamped with the call
instant, before the new context is installed. -/
theorem single_active_invariant :
    (∀ (m : PersonaManager) (ops : List LifecycleOp),
        m.historyDeactivated = true → (runOps m ops).activeContexts ≤ 1) ∧
    (∀ (m : PersonaManager) (ctx : PersonaContext) (pid : String)
        (phase ai : Option String) (now : Nat),
        m.current_context = some ctx →
        (activate_persona m pid phase ai now).1.history =
          m.history ++ [{ ctx with deactivated_at := some now }] ∧
        ({ ctx with deactivated_at := some now } : PersonaContext).persona_id =
          ctx.persona_id ∧
        (activate_persona m pid phase ai now).1.current_context =
          some ⟨pid, now, none, phase, [], [], []⟩) := by
  constructor
  · intro m ops h
    exact activeContexts_le_one _ (historyDeactivated_runOps ops m h)
  · intro m ctx pid phase ai now h
    rw [activate_state_active m ctx pid phase ai now h]
    exact ⟨rfl, rfl, rfl⟩

/-- Witness for C1 at a concrete manager with `business-analyst` active:
the invariant holds after a switch, and activating `solution-architect`
appends exactly the deactivated `business-analyst` entry. -/
theorem single_active_invariant_witness :
    (⟨some ⟨"business-analyst", 100, none, none, [], [], []⟩, [], []⟩ :
        PersonaManager).historyDeactivated = true ∧
    (runOps ⟨some ⟨"business-analyst", 100, none, none, [], [], []⟩, [], []⟩
      [LifecycleOp.switch "solution-architect" none none 700]).activeContexts ≤
        1 ∧
    (activate_persona
        ⟨some ⟨"business-analyst", 100, none, none, [], [], []⟩, [], []⟩
        "solution-architect" none none 700).1.history =
      [] ++ [⟨"business-analyst", 100, some 700, none, [], [], []⟩] :=
  ⟨rfl,
   single_active_invariant.1 _ _ rfl,
   (single_active_invariant.2 _ ⟨"business-analyst", 100, none, none, [], [], []⟩
     "solution-architect" none none 700 rfl).1⟩

/-- Claim C2 (refuted by the code): `deactivate_persona` is claimed to
trigger the Agent Context Notifier with a null persona when a notify
target is supplied; in the source the `ai_assistant` parameter of
`deactivate_persona` is accepted but never used, so no notifier call is
ever made on deactivation — active or not, notify target or not. -/
theorem deactivate_never_notifies (m : PersonaManager) (now : Nat)
    (ai : Option String) : (deactivate_persona m now ai).2.2 = [] := by
  cases h : m.current_context <;> simp [deactivate_persona, h]

/-- Claim C3: folding N completed sessions of one persona into an empty
performance mapping yields a record with `total_sessions = N`,
`total_duration_seconds = sum of the durations` and
`artifacts_created = sum of the artifact counts`. -/
theorem aggregation_correct (p : String)
    (sessions : List (PersonaContext × Int))
    (hall : sessions.all (fun s => s.1.persona_id == p) = true)
    (hne : sessions ≠ []) :
    ∃ perf : PersonaPerformance,
      (foldSessions [] sessions).lookup p = some perf ∧
      perf.total_sessions = sessions.length ∧
      perf.total_duration_seconds = (sessions.map (fun s => s.2)).sum ∧
      perf.artifacts_created =
        (sessions.map (fun s => s.1.artifacts.length)).sum := by
  have hall' : ∀ s ∈ sessions, s.1.persona_id = p := by
    intro s hs
    have := List.all_eq_true.mp hall s hs
    simpa [beq_iff_eq] using this
  exact aggregation_totals_aux p sessions hall' hne

/-- Witness for C3: two `tech-lead` sessions with durations 600 and 60 and
one error note between them. -/
theorem aggregation_correct_witness :
    (tlErrSessions.all (fun s => s.1.persona_id == "tech-lead")) = true ∧
    tlErrSessions ≠ [] ∧
    ∃ perf : PersonaPerformance,
      (foldSessions [] tlErrSessions).lookup "tech-lead" = some perf ∧
      perf.total_sessions = tlErrSessions.length ∧
      perf.total_duration_seconds = (tlErrSessions.map (fun s => s.2)).sum ∧
      perf.artifacts_created =
        (tlErrSessions.map (fun s => s.1.artifacts.length)).sum :=
  ⟨rfl, by simp [tlErrSessions],
   aggregation_correct "tech-lead" tlErrSessions rfl (by simp [tlErrSessions])⟩

/-- Claim C4: for S sessions of one persona of which E trip the
case-insensitive "error" note heuristic, the folded record has
`error_count = E` and `success_rate = (S - E) / S * 100` (exactly, in ℚ);
and the freshly created record (S = 0) has `success_rate = 100`. -/
theorem success_rate_formula (p : String)
    (sessions : List (PersonaContext × Int))
    (hall : sessions.all (fun s => s.1.persona_id == p) = true)
    (hne : sessions ≠ []) :
    (∃ perf : PersonaPerformance,
      (foldSessions [] sessions).lookup p = some perf ∧
      perf.error_count = countErrorSessions sessions ∧
      perf.success_rate =
        ((sessions.length : ℚ) - (countErrorSessions sessions : ℚ)) /
          (sessions.length : ℚ) * 100) ∧
    ({ persona_id := p } : PersonaPerformance).success_rate = 100 := by
  have hall' : ∀ s ∈ sessions, s.1.persona_id = p := by
    intro s hs
    have := List.all_eq_true.mp hall s hs
    simpa [beq_iff_eq] using this
  exact success_rate_aux p sessions hall' hne

/-- Witness for C4 at the two-session `tech-lead` batch with one error
session (the spec's `error_count = 1`, `success_rate = 50` scenario). -/
theorem success_rate_formula_witness :
    (tlErrSessions.all (fun s => s.1.persona_id == "tech-lead")) = true ∧
    tlErrSessions ≠ [] ∧
    ((∃ perf : PersonaPerformance,
        (foldSessions [] tlErrSessions).lookup "tech-lead" = some perf ∧
        perf.error_count = countErrorSessions tlErrSessions ∧
        perf.success_rate =
          ((tlErrSessions.length : ℚ) -
              (countErrorSessions tlErrSessions : ℚ)) /
            (tlErrSessions.length : ℚ) * 100) ∧
      ({ persona_id := "tech-lead" } : PersonaPerformance).success_rate =
        100) :=
  ⟨rfl, by simp [tlErrSessions],
   success_rate_formula "tech-lead" tlErrSessions rfl
     (by simp [tlErrSessions])⟩

/-- Claim C5: saving any valid `PersonaContext` to the state store
(`_save_state` writes the state document) and loading it back
(`_load_state`) yields the same value, field for field. -/
theorem save_load_round_trip (ctx : PersonaContext) (now : Nat) :
    load_state (.json (encodeState (some ctx) now)) = some ctx := by
  have hdec := decode_encode_context ctx
  have htruthy : (encodeContext ctx).truthy = true := by
    simp [encodeContext, Json.truthy]
  simp [load_state, loadStateBody, encodeState, jsonLoad, Json.asObj,
    List.lookup, htruthy, hdec]

/-- Claim C6: each of the three load operations is total over every
storage content — absent, unparsable, or any JSON document — and returns
either the successfully parsed record or that record's empty default:
null current context, empty history list, empty performance mapping. -/
theorem load_never_raises :
    (∀ fc : FileContent,
        (∃ r, loadStateBody fc = some r ∧ load_state fc = r) ∨
        (loadStateBody fc = none ∧ load_state fc = none)) ∧
    (∀ fc : FileContent,
        (∃ j, fc = FileContent.json j ∧ load_history fc = j) ∨
        load_history fc = Json.arr []) ∧
    (∀ fc : FileContent,
        (∃ r, loadPerformanceBody fc = some r ∧ load_performance fc = r) ∨
        (loadPerformanceBody fc = none ∧ load_performance fc = [])) := by
  refine ⟨?_, ?_, ?_⟩
  · intro fc
    cases h : loadStateBody fc with
    | none => right; simp [load_state, h]
    | some r => left; exact ⟨r, rfl, by simp [load_state, h]⟩
  · intro fc
    cases fc with
    | json j => left; exact ⟨j, rfl, rfl⟩
    | absent => right; rfl
    | corrupt => right; rfl
  · intro fc
    cases h : loadPerformanceBody fc with
    | none => right; simp [load_performance, h]
    | some r => left; exact ⟨r, rfl, by simp [load_performance, h]⟩

/-- Claim C7: deactivating an idle manager returns the Python `None`
sentinel ("nothing to deactivate"), leaves the whole state — in
particular the history record and the performance record — unchanged,
and emits no notification. -/
theorem deactivate_idle_noop (m : PersonaManager) (now : Nat)
    (ai : Option String) (h : m.current_context = none) :
    deactivate_persona m now ai = (m, none, []) ∧
    (deactivate_persona m now ai).1.history = m.history ∧
    (deactivate_persona m now ai).1.performance = m.performance := by
  have hsent : deactivate_persona m now ai = (m, none, []) := by
    simp [deactivate_persona, h]
  exact ⟨hsent, by rw [hsent], by rw [hsent]⟩

/-- Witness for C7 at a concrete idle manager. -/
theorem deactivate_idle_noop_witness :
    (⟨none, [], []⟩ : PersonaManager).current_context = none ∧
    deactivate_persona ⟨none, [], []⟩ 5 (some "claude") =
      (⟨none, [], []⟩, none, []) :=
  ⟨rfl, (deactivate_idle_noop ⟨none, [], []⟩ 5 (some "claude") rfl).1⟩

/-- Claim C8: `switch_persona` equals `deactivate_persona` (when a
context is active) followed by `activate_persona`, both in resulting
state and in emitted notifications; its result carries the activation
result's fields and a `previous_persona` equal to the persona active
before the call, or null when the manager was idle. -/
theorem switch_composition (m : PersonaManager) (pid : String)
    (phase ai : Option String) (now : Nat) :
    (switch_persona m pid phase ai now).1 =
      (activate_persona
        (if m.current_context.isSome then (deactivate_persona m now ai).1
          else m)
        pid phase ai now).1 ∧
    (switch_persona m pid phase ai now).2.2 =
      (activate_persona
        (if m.current_context.isSome then (deactivate_persona m now ai).1
          else m)
        pid phase ai now).2.2 ∧
    (switch_persona m pid phase ai now).2.1.status = "activated" ∧
    (switch_persona m pid phase ai now).2.1.persona = pid ∧
    (switch_persona m pid phase ai now).2.1.phase = phase ∧
    (switch_persona m pid phase ai now).2.1.activated_at = now ∧
    (switch_persona m pid phase ai now).2.1.previous_persona =
      Option.map (fun c => c.persona_id) m.current_context := by
  cases h : m.current_context <;>
    simp [switch_persona, activate_persona, deactivate_persona, h]

/-- Claim C9: on an active context, `add_artifact` appends only to
`artifacts`, `add_note` appends only to `notes`, `update_phase` replaces
only `phase`; each leaves `persona_id`, `activated_at` and
`deactivated_at` (and the history and performance records) unchanged, so
`activated_at` is immutable after activation. -/
theorem mutators_frame (m : PersonaManager) (ctx : PersonaContext)
    (path note : String) (now : Nat) (ph : String)
    (h : m.current_context = some ctx) :
    (add_artifact m path).current_context =
      some { ctx with artifacts := ctx.artifacts ++ [path] } ∧
    (add_note m note now).current_context =
      some { ctx with notes :=
        ctx.notes ++ ["[" ++ toString now ++ "] " ++ note] } ∧
    (update_phase m ph).current_context = some { ctx with phase := some ph } ∧
    (add_artifact m path).history = m.history ∧
    (add_note m note now).history = m.history ∧
    (update_phase m ph).history = m.history ∧
    (add_artifact m path).performance = m.performance ∧
    (add_note m note now).performance = m.performance ∧
    (update_phase m ph).performance = m.performance := by
  refine ⟨?_, ?_, ?_, ?_, ?_, ?_, ?_, ?_, ?_⟩ <;>
    simp [add_artifact, add_note, update_phase, h]

/-- Witness for C9: adding an artifact to an active `business-analyst`
context changes exactly the artifact list. -/
theorem mutators_frame_witness :
    (⟨some ⟨"business-analyst", 100, none, some "specify", [], [], []⟩, [], []⟩ :
        PersonaManager).current_context =
      some ⟨"business-analyst", 100, none, some "specify", [], [], []⟩ ∧
    (add_artifact
        ⟨some ⟨"business-analyst", 100, none, some "specify", [], [], []⟩,
          [], []⟩
        "docs/ba/requirements.md").current_context =
      some ⟨"business-analyst", 100, none, some "specify",
        ["docs/ba/requirements.md"], [], []⟩ :=
  ⟨rfl,
   (mutators_frame _ ⟨"business-analyst", 100, none, some "specify", [], [], []⟩
     "docs/ba/requirements.md" "n" 5 "plan" rfl).1⟩

/-- Claim C10: in every performance mapping reachable from the empty
mapping by session folds, every record satisfies
`error_count ≤ total_sessions` and `0 ≤ success_rate ≤ 100`; and each
fold step increments `total_sessions` by exactly 1 and `error_count` by
at most 1. -/
theorem performance_invariant :
    (∀ (sessions : List (PersonaContext × Int))
        (x : String × PersonaPerformance), x ∈ foldSessions [] sessions →
        x.2.error_count ≤ x.2.total_sessions ∧
        0 ≤ x.2.success_rate ∧ x.2.success_rate ≤ 100) ∧
    (∀ (perf : PersonaPerformance) (ctx : PersonaContext) (d : Int),
        (foldSession perf ctx d).total_sessions = perf.total_sessions + 1 ∧
        perf.error_count ≤ (foldSession perf ctx d).error_count ∧
        (foldSession perf ctx d).error_count ≤ perf.error_count + 1) := by
  constructor
  · intro sessions x hx
    exact foldSessions_inv sessions [] (by simp) x hx
  · intro perf ctx d
    refine ⟨foldSession_total_sessions perf ctx d, ?_, ?_⟩ <;>
      rw [foldSession_error_count] <;>
        by_cases he : ctx.notes.any (fun note => noteHasError note) <;>
          simp [he]

/-- Witness for C10 at the concrete `tech-lead` record reached after the
two-session batch. -/
theorem performance_invariant_witness :
    (("tech-lead",
        (foldSessionsRecord { persona_id := "tech-lead" } tlErrSessions)) ∈
      foldSessions [] tlErrSessions) ∧
    ((foldSessionsRecord { persona_id := "tech-lead" }
        tlErrSessions).error_count ≤
      (foldSessionsRecord { persona_id := "tech-lead" }
        tlErrSessions).total_sessions) ∧
    0 ≤ (foldSessionsRecord { persona_id := "tech-lead" }
        tlErrSessions).success_rate ∧
    (foldSessionsRecord { persona_id := "tech-lead" }
        tlErrSessions).success_rate ≤ 100 := by
  have hmem : ("tech-lead",
      (foldSessionsRecord { persona_id := "tech-lead" } tlErrSessions)) ∈
        foldSessions [] tlErrSessions := by
    have := foldSessions_empty_lookup tlErrSessions "tech-lead"
      (by intro s hs; fin_cases hs <;> rfl) (by simp [tlErrSessions])
    exact mem_of_lookup_eq_some this
  exact ⟨hmem, performance_invariant.1 tlErrSessions _ hmem⟩

end SpecxPersona
